import Mathlib

/-!
Shallow embedding of two LIT front-end modules:
`src/lit_nlp/client/modules/slice_module.ts` (the slice editor) and
`src/lit_nlp/client/modules/selection_toolbar.ts` (the selection toolbar).

The widgets call into shared services (SelectionService, SliceService,
AppState, GroupService) whose implementations are not part of this
repository fragment; those operations are modelled from the spec and are
marked as such in their doc comments.  Everything else is translated
directly from the TypeScript source.
-/

/-- Per-row metadata, as accessed by the toolbar: `meta['parentId']` and
`meta['isFavorited']`.  An absent field is `none`; a JS-falsy `parentId`
(empty string) is handled at the use sites exactly as the source does. -/
structure RowMeta where
  parentId : Option String := none
  isFavorited : Option Bool := none
deriving DecidableEq, Repr

/-- A dataset row: an opaque string id plus metadata. -/
structure Row where
  id : String
  meta : RowMeta := {}
deriving DecidableEq, Repr

/-- Modelled from the spec: the selection service's state, an ordered set of
selected identifiers plus a primary identifier (a member of the selection
set, or null). -/
structure SelState where
  selectedIds : List String := []
  primaryId : Option String := none
deriving DecidableEq, Repr

/-- Modelled from the spec: `selectIds(ids)` replaces the selection set;
the selection service de-duplicates automatically (the source comments in
`findAllParents` and `selectRelated` rely on this).  The primary becomes
the first selected id, or null when the selection is empty. -/
def selIds (ids : List String) (_s : SelState) : SelState :=
  { selectedIds := ids.dedup, primaryId := ids.dedup.head? }

/-- Modelled from the spec: `setPrimarySelection(id)`. -/
def setPrimary (id : String) (s : SelState) : SelState :=
  { s with primaryId := some id }

/-- Modelled from the spec: `isIdSelected(id)`. -/
def isIdSelected (s : SelState) (id : String) : Bool :=
  s.selectedIds.contains id

/-- Modelled from the spec: the reserved favorites slice name
(`FAVORITES_SLICE_NAME` from `slice_service.ts`, which is outside this
fragment). -/
def FAVORITES_SLICE_NAME : String := "favorites"

/-- Slice storage: ordered association list from slice name to the slice's
identifier membership. -/
abbrev Slices := List (String × List String)

/-- Modelled from the spec: membership of a named slice (the set of ids the
slice maps to); an unknown name has empty membership. -/
def sliceMembership (slices : Slices) (name : String) : List String :=
  ((slices.find? (fun e => e.1 == name)).map (fun e => e.2)).getD []

/-- Modelled from the spec: names of all slices, in storage order. -/
def sliceNamesOf (slices : Slices) : List String :=
  slices.map (fun e => e.1)

/-- Update the first slice with the given name by `f`, leaving the rest of
the storage untouched. -/
def updateSlice (name : String) (f : List String → List String) :
    Slices → Slices
  | [] => []
  | (n, ids) :: rest =>
    if n == name then (n, f ids) :: rest
    else (n, ids) :: updateSlice name f rest

/-- Modelled from the spec: `addIdsToSlice(name, ids)` adds the given ids to
the named slice's membership; slice membership is a set, so ids already
present are not added again. -/
def addIdsToSlice (name : String) (ids : List String) (slices : Slices) :
    Slices :=
  updateSlice name (fun cur => cur ++ ids.filter (fun i => !cur.contains i)) slices

/-- Modelled from the spec: `removeIdsFromSlice(name, ids)` removes the given
ids from the named slice's membership. -/
def removeIdsFromSlice (name : String) (ids : List String) (slices : Slices) :
    Slices :=
  updateSlice name (fun cur => cur.filter (fun i => !ids.contains i)) slices

/-- Modelled from the spec: `addNamedSlice(name, ids)` persists a new slice. -/
def addNamedSlice (name : String) (ids : List String) (slices : Slices) :
    Slices :=
  slices ++ [(name, ids)]

/-- Modelled from the spec: `deleteNamedSlice(name)` removes the named slice. -/
def deleteNamedSlice (name : String) (slices : Slices) : Slices :=
  slices.filter (fun e => !(e.1 == name))

/-- State of the slice editor module: its two observable fields
(`sliceByFeatures`, `sliceName`), the selection service's selected ids, and
the slice service's storage and active slice name. -/
structure SliceModuleState where
  selectedIds : List String := []
  sliceByFeatures : List String := []
  sliceName : String := ""
  slices : Slices := []
  selectedSliceName : String := ""
deriving DecidableEq, Repr

/-- `anyCheckboxChecked` from `slice_module.ts`: the source returns
`this.sliceByFeatures.length`, a number used in boolean position, i.e.
truthy iff non-zero. -/
def anyCheckboxChecked (s : SliceModuleState) : Bool :=
  !s.sliceByFeatures.isEmpty

/-- `createButtonEnabled` from `slice_module.ts` (lines 60–71):
`sliceFromFilters || (sliceName !== '') && (selectedIds.length > 0)`. -/
def createButtonEnabled (s : SliceModuleState) : Bool :=
  let sliceFromFilters := s.selectedIds.length == 0 && anyCheckboxChecked s
  sliceFromFilters || ((s.sliceName != "") && decide (s.selectedIds.length > 0))

/-- `deleteButtonEnabled` from `slice_module.ts` (lines 73–77). -/
def deleteButtonEnabled (s : SliceModuleState) : Bool :=
  (s.selectedSliceName != "") && (s.selectedSliceName != FAVORITES_SLICE_NAME)

/-- Modelled from the spec: `selectNamedSlice(name)` sets the named slice as
active and replaces the current selection with its membership; selecting the
empty name clears the active-slice indicator without clearing the
selection. -/
def selectSliceM (name : String) (s : SliceModuleState) : SliceModuleState :=
  if name == "" then { s with selectedSliceName := "" }
  else { s with selectedSliceName := name,
                selectedIds := sliceMembership s.slices name }

/-- `lastCreatedSlice` from `slice_module.ts`: `allSlices[allSlices.length - 1]`
(the most recently stored slice name; empty string when there are none). -/
def lastCreatedSlice (s : SliceModuleState) : String :=
  (sliceNamesOf s.slices).getLastD ""

/-- `makeSlicesFromAllLabelCombos` from `slice_module.ts`, with the external
GroupService's `groupExamplesByFeatures` result supplied as `groups`, a list
of (group label, ids of the group's rows): one slice is created per group,
named by the text input followed by two spaces and the group label. -/
def makeSlicesFromAllLabelCombos (groups : List (String × List String))
    (s : SliceModuleState) : SliceModuleState :=
  let newSlices :=
    groups.foldl (fun acc g => addNamedSlice (s.sliceName ++ "  " ++ g.1) g.2 acc)
      s.slices
  { s with slices := newSlices }

/-- `handleClickCreate` from `slice_module.ts` (lines 96–108): if any feature
checkbox is checked, create one slice per label combination and select the
last created one; otherwise create a single slice named by the text input
containing the currently selected identifiers and select it.  Afterwards the
name input and the checkbox list are reset. -/
def handleClickCreate (groups : List (String × List String))
    (s : SliceModuleState) : SliceModuleState :=
  let s1 :=
    if anyCheckboxChecked s then
      let s2 := makeSlicesFromAllLabelCombos groups s
      selectSliceM (lastCreatedSlice s2) s2
    else
      let s2 := { s with slices := addNamedSlice s.sliceName s.selectedIds s.slices }
      selectSliceM s.sliceName s2
  { s1 with sliceName := "", sliceByFeatures := [] }

/-- `deleteSlice` from `slice_module.ts` (lines 131–134): delete the slice
named by the current active slice name, then select the empty name. -/
def deleteSlice (s : SliceModuleState) : SliceModuleState :=
  selectSliceM "" { s with slices := deleteNamedSlice s.selectedSliceName s.slices }

/-- The delete button as rendered (`render`, line 251): the click handler
runs only when `deleteButtonEnabled`; a disabled control does nothing. -/
def deleteClick (s : SliceModuleState) : SliceModuleState :=
  if deleteButtonEnabled s then deleteSlice s else s

/-- State seen by the selection toolbar: the dataset (`AppState.currentInputData`),
the main and reference selection services, the slice service's storage and
active slice name, the comparison-mode flag, and the widget's own
`highlightFavorite` observable. -/
structure ToolbarState where
  data : List Row := []
  sel : SelState := {}
  refSel : SelState := {}
  slices : Slices := []
  selectedSliceName : String := ""
  compareExamplesEnabled : Bool := false
  highlightFavorite : Bool := false
deriving DecidableEq, Repr

/-- Modelled from the spec: `selectedOrAllInputData` — the currently selected
rows, or the whole dataset when the selection is empty. -/
def selectedOrAllInputData (s : ToolbarState) : List Row :=
  if s.sel.selectedIds.isEmpty then s.data
  else s.data.filter (fun d => s.sel.selectedIds.contains d.id)

/-- Modelled from the spec: `primarySelectedInputData` — the dataset row whose
id is the primary selected id, or null. -/
def primarySelectedInputData (s : ToolbarState) : Option Row :=
  s.sel.primaryId.bind (fun pid => s.data.find? (fun d => d.id == pid))

/-- `selectedIdPairs` from `selection_toolbar.ts` (lines 59–64): [child, parent]
id pairs from rows of the selected-or-all data whose `meta['parentId']` is
truthy (a non-empty string). -/
def selectedIdPairs (s : ToolbarState) : List (String × String) :=
  ((selectedOrAllInputData s).filter
      (fun d => d.meta.parentId.getD "" != "")).map
    (fun d => (d.id, d.meta.parentId.getD ""))

/-- Modelled from the spec: `getAncestry(id)` follows `parentId` links
transitively, inclusive of the starting identifier, returning the ordered
ancestry chain.  `fuel` bounds the walk so that a cyclic `parentId` chain in
the data terminates; callers pass a fuel larger than the dataset. -/
def getAncestryFuel (data : List Row) : Nat → String → List String
  | 0, _ => []
  | fuel + 1, id =>
    id ::
      (match (data.find? (fun d => d.id == id)).bind (fun d => d.meta.parentId) with
       | some p => if p != "" then getAncestryFuel data fuel p else []
       | none => [])

/-- `AppState.getAncestry` as the toolbar uses it, with fuel larger than the
dataset so every acyclic chain is followed to its end. -/
def getAncestry (s : ToolbarState) (id : String) : List String :=
  getAncestryFuel s.data (s.data.length + 1) id

/-- `findAllParents` from `selection_toolbar.ts` (lines 66–73): the flattened
ancestries of all selected ids (which may contain duplicates; the selection
service de-duplicates). -/
def findAllParents (s : ToolbarState) : List String :=
  (s.sel.selectedIds.map (fun id => getAncestry s id)).flatten

/-- One step of the `findAllChildren` loop body: a JS `Set.add`, appending the
id only when absent. -/
def addIfAbsent (acc : List String) (id : String) : List String :=
  if acc.contains id then acc else acc ++ [id]

/-- `findAllChildren` from `selection_toolbar.ts` (lines 75–88): start from the
set of selected ids; every datapoint with a selected ancestor is added. -/
def findAllChildren (s : ToolbarState) : List String :=
  s.data.foldl
    (fun acc d =>
      if (getAncestry s d.id).any (fun a => isIdSelected s.sel a) then
        addIfAbsent acc d.id
      else acc)
    s.sel.selectedIds.dedup

/-- `selectRelated` from `selection_toolbar.ts` (lines 90–94): select the
concatenation of all parents and all children (de-duplicated by the
selection service). -/
def selectRelated (s : ToolbarState) : ToolbarState :=
  { s with sel := selIds (findAllParents s ++ findAllChildren s) s.sel }

/-- `toggleFavorited` from `selection_toolbar.ts` (lines 96–119): when a
primary row exists and its `isFavorited` field is present, flip the flag,
sync the favorites slice (`add` when turned on, `remove` when turned off),
re-select the favorites slice when it is the active slice, and record the
new flag in `highlightFavorite`. -/
def toggleFavorited (s : ToolbarState) : ToolbarState :=
  match primarySelectedInputData s with
  | none => s
  | some row =>
    match row.meta.isFavorited with
    | none => s
    | some fav =>
      let newFav := !fav
      let data1 := s.data.map (fun d =>
        if d.id == row.id then { d with meta := { d.meta with isFavorited := some newFav } }
        else d)
      let slices1 :=
        if newFav then addIdsToSlice FAVORITES_SLICE_NAME [row.id] s.slices
        else removeIdsFromSlice FAVORITES_SLICE_NAME [row.id] s.slices
      let s1 := { s with data := data1, slices := slices1 }
      let s2 :=
        if s1.selectedSliceName == FAVORITES_SLICE_NAME then
          { s1 with sel :=
              { selectedIds := sliceMembership s1.slices FAVORITES_SLICE_NAME,
                primaryId :=
                  match s1.sel.primaryId with
                  | some pid =>
                    if (sliceMembership s1.slices FAVORITES_SLICE_NAME).contains pid
                    then some pid
                    else (sliceMembership s1.slices FAVORITES_SLICE_NAME).head?
                  | none => (sliceMembership s1.slices FAVORITES_SLICE_NAME).head? } }
        else s1
      { s2 with highlightFavorite := newFav }

/-- JS `Array.findIndex`: index of the first element satisfying the
predicate, or -1. -/
def findIndexJS {α : Type} (p : α → Bool) : List α → Int
  | [] => -1
  | x :: xs =>
    if p x then 0
    else
      let r := findIndexJS p xs
      if r == -1 then -1 else r + 1

/-- The `selectOffset` closure of `renderSelectionArrows`
(`selection_toolbar.ts` lines 144–173): from the primary id's dataset index,
move by `offset` with wrap-around `(selectedIndex + offset + numExamples) %
numExamples` and return the id there. -/
def selectOffsetDS (data : List Row) (primaryId : Option String)
    (offset : Int) : Option String :=
  let selectedIndex := findIndexJS (fun ex => primaryId == some ex.id) data
  let numExamples : Int := data.length
  let nextIndex := (selectedIndex + offset + numExamples).tmod numExamples
  if nextIndex < 0 then none
  else (data[nextIndex.toNat]?).map (fun r => r.id)

/-- A click on the dataset paging arrows: the computed next id replaces the
selection via `selectIds([nextId])`. -/
def dsPageStep (s : ToolbarState) (offset : Int) : ToolbarState :=
  match selectOffsetDS s.data s.sel.primaryId offset with
  | none => s
  | some nextId => { s with sel := selIds [nextId] s.sel }

/-- The `selectOffset` closure of `renderPairControls`
(`selection_toolbar.ts` lines 224–290): find the currently selected
[child, parent] pair among `selectedIdPairs` (or start at 0 when none is
selected), move by `offset` with wrap-around modulo the number of pairs,
select the flattened pair ids when nothing was selected, then set the child
as the main primary and the parent as the reference primary. -/
def pairStep (s : ToolbarState) (offset : Int) : ToolbarState :=
  let idPairs := selectedIdPairs s
  if idPairs.isEmpty then s
  else
    let selectedPairIndex : Int :=
      match s.sel.primaryId, s.refSel.primaryId with
      | some p, some r =>
        findIndexJS (fun pr => pr.1 == p && pr.2 == r) idPairs
      | _, _ => -1
    let isPairSelected := selectedPairIndex != -1
    let start := if isPairSelected then selectedPairIndex else 0
    let numPairs : Int := idPairs.length
    let nextPairIndex := (start + offset + numPairs).tmod numPairs
    if nextPairIndex < 0 then s
    else
      match idPairs[nextPairIndex.toNat]? with
      | none => s
      | some nextIds =>
        let s1 :=
          if s.sel.selectedIds.isEmpty then
            { s with sel := selIds (idPairs.flatMap (fun pr => [pr.1, pr.2])) s.sel }
          else s
        { s1 with sel := setPrimary nextIds.1 s1.sel,
                  refSel := setPrimary nextIds.2 s1.refSel }

/-- Render guard for the dataset paging arrows (`render`, line 332): they are
rendered only when exactly one identifier is selected. -/
def selectionArrowsRendered (s : ToolbarState) : Bool :=
  s.sel.selectedIds.length == 1

/-- Render guard for the primary-selection paging arrows
(`renderPrimarySelectControls`, lines 182 and 201): a primary exists and
more than one identifier is selected. -/
def primaryArrowsRendered (s : ToolbarState) : Bool :=
  s.sel.primaryId.isSome && decide (1 < s.sel.selectedIds.length)

/-- Render guard for the pair controls (`render` line 334 and
`renderPairControls` lines 225–226): comparison mode is on and the pair list
is non-empty. -/
def pairControlsRendered (s : ToolbarState) : Bool :=
  s.compareExamplesEnabled && !(selectedIdPairs s).isEmpty

/-- The dataset invariant from the spec: the selection set contains only
identifiers present in the current dataset. -/
def SelectionInDataset (s : ToolbarState) : Prop :=
  ∀ id ∈ s.sel.selectedIds, ∃ d ∈ s.data, d.id = id

/-- The body of `toggleFavorited` once a primary row with a present
`isFavorited` flag has been found: flip the flag to `!fav`, sync the
favorites slice, reselect the favorites slice when active, and record the
flag.  `toggleFavorited` reduces to this (see `toggleFavorited_eq`). -/
def applyToggle (s : ToolbarState) (row : Row) (fav : Bool) : ToolbarState :=
  let newFav := !fav
  let data1 := s.data.map (fun d =>
    if d.id == row.id then { d with meta := { d.meta with isFavorited := some newFav } }
    else d)
  let slices1 :=
    if newFav then addIdsToSlice FAVORITES_SLICE_NAME [row.id] s.slices
    else removeIdsFromSlice FAVORITES_SLICE_NAME [row.id] s.slices
  let s1 := { s with data := data1, slices := slices1 }
  let s2 :=
    if s1.selectedSliceName == FAVORITES_SLICE_NAME then
      { s1 with sel :=
          { selectedIds := sliceMembership s1.slices FAVORITES_SLICE_NAME,
            primaryId :=
              match s1.sel.primaryId with
              | some pid =>
                if (sliceMembership s1.slices FAVORITES_SLICE_NAME).contains pid
                then some pid
                else (sliceMembership s1.slices FAVORITES_SLICE_NAME).head?
              | none => (sliceMembership s1.slices FAVORITES_SLICE_NAME).head? } }
    else s1
  { s2 with highlightFavorite := newFav }

/-- The two-row dataset of the paired-navigation scenario: `child1 → parent1`
and `child2 → parent2`, comparison mode on, nothing selected. -/
def pairSt : ToolbarState :=
  { data := [{ id := "child1", meta := { parentId := some "parent1" } },
             { id := "child2", meta := { parentId := some "parent2" } }],
    compareExamplesEnabled := true }

/-- The paired-navigation scenario, with arbitrary names: a dataset of two
rows linking `c1 → p1` and `c2 → p2`, comparison mode on, and an empty main
selection; the reference selection and the remaining fields are arbitrary. -/
def pairScenario (c1 p1 c2 p2 : String) (refSel : SelState) (slices : Slices)
    (ssn : String) (hf : Bool) : ToolbarState :=
  { data := [{ id := c1, meta := { parentId := some p1 } },
             { id := c2, meta := { parentId := some p2 } }],
    sel := {}, refSel := refSel, slices := slices,
    selectedSliceName := ssn, compareExamplesEnabled := true,
    highlightFavorite := hf }

/-- A one-row favoriting scenario: the row "a" is primary-selected, its
favorite flag is off, and the favorites slice exists and is empty. -/
def favSt : ToolbarState :=
  { data := [{ id := "a", meta := { isFavorited := some false } }],
    sel := { selectedIds := ["a"], primaryId := some "a" },
    slices := [(FAVORITES_SLICE_NAME, [])] }

theorem find?_filter_of_imp {α : Type} (p q : α → Bool) (l : List α)
    (h : ∀ x, p x = true → q x = true) :
    (l.filter q).find? p = l.find? p := by
  induction l with
  | nil => rfl
  | cons a t ih =>
    by_cases hq : q a
    · by_cases hp : p a <;> simp [List.filter_cons, List.find?_cons, hq, hp, ih]
    · have hp : p a = false := by
        cases hpa : p a
        · rfl
        · exact absurd (h a hpa) (by simp [hq])
      simp [List.filter_cons, List.find?_cons, hq, hp, ih]

/-- C6: the create button is enabled exactly when (the explicit selection is
empty and at least one feature checkbox is checked) or (the entered name is
non-empty and at least one identifier is selected). -/
theorem C6_create_button_enabled_iff (s : SliceModuleState) :
    createButtonEnabled s = true ↔
      (s.selectedIds = [] ∧ s.sliceByFeatures ≠ []) ∨
      (s.sliceName ≠ "" ∧ s.selectedIds ≠ []) := by
  simp [createButtonEnabled, anyCheckboxChecked, List.length_eq_zero,
    List.isEmpty_iff, List.length_pos]

/-- C10: after every invocation of `deleteSlice` no slice remains active:
the selected slice name is the empty string afterwards. -/
theorem C10_deleteSlice_clears_active (s : SliceModuleState) :
    (deleteSlice s).selectedSliceName = "" := by
  simp [deleteSlice, selectSliceM]

/-- C7: the delete control is disabled exactly when the selected slice name
is empty or is the reserved favorites name; clicking delete while the
favorites slice is active is a no-op, and a delete click never changes the
favorites slice's entry in the storage. -/
theorem C7_delete_guard (s : SliceModuleState) :
    (deleteButtonEnabled s = false ↔
        s.selectedSliceName = "" ∨ s.selectedSliceName = FAVORITES_SLICE_NAME)
    ∧ (s.selectedSliceName = FAVORITES_SLICE_NAME → deleteClick s = s)
    ∧ (s.slices.find? (fun e => e.1 == FAVORITES_SLICE_NAME) =
        (deleteClick s).slices.find? (fun e => e.1 == FAVORITES_SLICE_NAME)) := by
  refine ⟨?_, ?_, ?_⟩
  · simp [deleteButtonEnabled, Decidable.or_iff_not_imp_left]
  · intro h
    simp [deleteClick, deleteButtonEnabled, h]
  · by_cases h : deleteButtonEnabled s = true
    · have hne : s.selectedSliceName ≠ FAVORITES_SLICE_NAME := by
        simp [deleteButtonEnabled] at h
        exact h.2
      simp only [deleteClick, h, if_true, deleteSlice, selectSliceM,
        deleteNamedSlice]
      have hc : ("" == "") = true := rfl
      rw [if_pos hc]
      dsimp only
      rw [find?_filter_of_imp]
      intro e he
      simp only [beq_iff_eq] at he ⊢
      simp [he, Ne.symm hne]
    · simp only [Bool.not_eq_true] at h
      simp [deleteClick, h]

/-- C7 witness: deleting while the favorites slice is active leaves the
state unchanged. -/
theorem C7_delete_guard_witness :
    deleteClick { selectedSliceName := FAVORITES_SLICE_NAME,
                  slices := [(FAVORITES_SLICE_NAME, ["a"])] } =
      { selectedSliceName := FAVORITES_SLICE_NAME,
        slices := [(FAVORITES_SLICE_NAME, ["a"])] } :=
  (C7_delete_guard _).2.1 rfl

/-- C9: `toggleFavorited` is a no-op when there is no primary-selected input
row, or when the primary row's metadata lacks the `isFavorited` field. -/
theorem C9_toggleFavorited_noop (s : ToolbarState)
    (h : primarySelectedInputData s = none ∨
         ∃ row, primarySelectedInputData s = some row ∧
           row.meta.isFavorited = none) :
    toggleFavorited s = s := by
  unfold toggleFavorited
  rcases h with h | ⟨row, hrow, hfav⟩
  · rw [h]
  · rw [hrow]
    simp only [hfav]

/-- C9 witness: the no-op on a concrete state with no primary selection. -/
theorem C9_toggleFavorited_noop_witness :
    toggleFavorited { data := [{ id := "a" }] } = { data := [{ id := "a" }] } :=
  C9_toggleFavorited_noop _ (Or.inl rfl)

theorem sliceMembership_append_fresh (l : Slices) (name : String)
    (ids : List String) (h : name ∉ sliceNamesOf l) :
    sliceMembership (l ++ [(name, ids)]) name = ids := by
  induction l with
  | nil => simp [sliceMembership]
  | cons e t ih =>
    simp only [sliceNamesOf, List.map_cons, List.mem_cons, not_or] at h
    have hne : (e.1 == name) = false := beq_eq_false_iff_ne.mpr (fun hx => h.1 hx.symm)
    have ht : name ∉ sliceNamesOf t := h.2
    simpa [sliceMembership, List.cons_append, List.find?_cons, hne]
      using ih ht

/-- C5: with a non-empty name, no checkbox checked, and a fresh name, the
create action adds a slice whose membership is exactly the selected
identifiers, makes it the selected slice, and resets the name input and the
checkbox list. -/
theorem C5_create_slice_from_selection (groups : List (String × List String))
    (s : SliceModuleState)
    (hname : s.sliceName ≠ "")
    (hbox : s.sliceByFeatures = [])
    (hfresh : s.sliceName ∉ sliceNamesOf s.slices) :
    sliceMembership (handleClickCreate groups s).slices s.sliceName = s.selectedIds
    ∧ (handleClickCreate groups s).selectedSliceName = s.sliceName
    ∧ (handleClickCreate groups s).sliceName = ""
    ∧ (handleClickCreate groups s).sliceByFeatures = [] := by
  have hchk : anyCheckboxChecked s = false := by simp [anyCheckboxChecked, hbox]
  have hnb : (s.sliceName == "") = false := beq_eq_false_iff_ne.mpr hname
  simp only [handleClickCreate, hchk, Bool.false_eq_true, if_false, addNamedSlice,
    selectSliceM, hnb]
  exact ⟨sliceMembership_append_fresh s.slices s.sliceName s.selectedIds hfresh,
    trivial, trivial, trivial⟩

/-- C5 witness: creating the slice "my" from the selection ["x", "y"]. -/
theorem C5_create_slice_from_selection_witness :
    sliceMembership (handleClickCreate []
        { selectedIds := ["x", "y"], sliceName := "my" }).slices "my" = ["x", "y"]
    ∧ (handleClickCreate []
        { selectedIds := ["x", "y"], sliceName := "my" }).selectedSliceName = "my"
    ∧ (handleClickCreate []
        { selectedIds := ["x", "y"], sliceName := "my" }).sliceName = ""
    ∧ (handleClickCreate []
        { selectedIds := ["x", "y"], sliceName := "my" }).sliceByFeatures = [] :=
  C5_create_slice_from_selection [] _ (by decide) rfl (by decide)

/-- C8: under the invariant that selected ids come from the dataset, each
navigation control's modulo divisor is positive whenever the control is
rendered: the dataset size for the dataset paging arrows, the selection size
for the primary paging arrows, and the pair count for the pair controls. -/
theorem C8_no_division_by_zero (s : ToolbarState) (hinv : SelectionInDataset s) :
    (selectionArrowsRendered s = true → 0 < s.data.length)
    ∧ (primaryArrowsRendered s = true → 0 < s.sel.selectedIds.length)
    ∧ (pairControlsRendered s = true → 0 < (selectedIdPairs s).length) := by
  refine ⟨?_, ?_, ?_⟩
  · intro hg
    simp only [selectionArrowsRendered, beq_iff_eq] at hg
    cases e : s.sel.selectedIds with
    | nil => rw [e] at hg; simp at hg
    | cons a t =>
      obtain ⟨d, hd, -⟩ := hinv a (by rw [e]; exact List.mem_cons_self a t)
      cases hdata : s.data with
      | nil => rw [hdata] at hd; simp at hd
      | cons x xs => simp
  · intro hg
    simp only [primaryArrowsRendered, Bool.and_eq_true, decide_eq_true_eq] at hg
    omega
  · intro hg
    simp only [pairControlsRendered, Bool.and_eq_true, Bool.not_eq_true'] at hg
    cases e : selectedIdPairs s with
    | nil => rw [e] at hg; simp at hg
    | cons a t => simp

/-- C8 witness: the three positivity conclusions on a one-row dataset with
that row selected. -/
theorem C8_no_division_by_zero_witness :
    (selectionArrowsRendered
        { data := [{ id := "a", meta := { parentId := some "b" } }],
          sel := { selectedIds := ["a"], primaryId := some "a" } } = true →
      0 < ([{ id := "a", meta := { parentId := some "b" } }] : List Row).length)
    ∧ (primaryArrowsRendered
        { data := [{ id := "a", meta := { parentId := some "b" } }],
          sel := { selectedIds := ["a"], primaryId := some "a" } } = true →
      0 < (["a"] : List String).length)
    ∧ (pairControlsRendered
        { data := [{ id := "a", meta := { parentId := some "b" } }],
          sel := { selectedIds := ["a"], primaryId := some "a" } } = true →
      0 < (selectedIdPairs
        { data := [{ id := "a", meta := { parentId := some "b" } }],
          sel := { selectedIds := ["a"], primaryId := some "a" } }).length) :=
  C8_no_division_by_zero _ (by unfold SelectionInDataset; decide)

theorem tmod_coe (a b : Nat) : ((a : Int)).tmod (b : Int) = ((a % b : Nat) : Int) :=
  rfl

theorem findIndexJS_of_get (data : List Row) (t : String) (i : Nat)
    (h : i < data.length) (hnd : (data.map Row.id).Nodup)
    (ht : (data.get ⟨i, h⟩).id = t) :
    findIndexJS (fun ex => t == ex.id) data = (i : Int) := by
  induction data generalizing i with
  | nil => simp at h
  | cons d rest ih =>
    rw [List.map_cons, List.nodup_cons] at hnd
    cases i with
    | zero =>
      simp only [List.get] at ht
      simp [findIndexJS, ← ht]
    | succ j =>
      have hj : j < rest.length := by simpa using h
      have hmem : t ∈ rest.map Row.id := by
        rw [← ht]
        exact List.mem_map_of_mem Row.id (List.get_mem rest j hj)
      have hp : (t == d.id) = false := by
        apply beq_eq_false_iff_ne.mpr
        intro e
        rw [e] at hmem
        exact hnd.1 hmem
      have hr : findIndexJS (fun ex => t == ex.id) rest = (j : Int) :=
        ih j hj hnd.2 ht
      have hne : ((j : Int) == -1) = false := by
        apply beq_eq_false_iff_ne.mpr
        omega
      simp only [findIndexJS, hp, Bool.false_eq_true, if_false, hr, hne]
      push_cast
      ring

theorem dsPageStep_eq (s : ToolbarState) (i : Nat) (h : i < s.data.length)
    (hnd : (s.data.map Row.id).Nodup)
    (hpr : s.sel.primaryId = some ((s.data.get ⟨i, h⟩).id))
    (offset : Int) (m : Nat) (hm : m < s.data.length)
    (hoff : ((i : Int) + offset + (s.data.length : Int)).tmod
        (s.data.length : Int) = (m : Int)) :
    (dsPageStep s offset).sel.selectedIds = ((s.data[m]?).map Row.id).toList := by
  have hpredeq : (fun ex : Row => s.sel.primaryId == some ex.id) =
      (fun ex => ((s.data.get ⟨i, h⟩).id) == ex.id) := by
    funext ex
    rw [hpr]
    cases hb : ((s.data.get ⟨i, h⟩).id == ex.id) <;> simp_all [beq_iff_eq]
  have hsel : selectOffsetDS s.data s.sel.primaryId offset =
      (s.data[m]?).map Row.id := by
    simp only [selectOffsetDS]
    rw [hpredeq, findIndexJS_of_get s.data _ i h hnd rfl, hoff]
    rw [if_neg (by omega), Int.toNat_natCast]
  obtain ⟨r, hr⟩ : ∃ r, s.data[m]? = some r := by
    rw [List.getElem?_eq_getElem hm]
    exact ⟨_, rfl⟩
  unfold dsPageStep
  rw [hsel, hr]
  simp [selIds]

/-- C1: with the selected identifier at dataset index `i` of `N` rows,
clicking next selects the identifier at index `(i+1) mod N` and clicking
prev the one at `(i-1+N) mod N`; in particular next from the last index
yields the first identifier and prev from the first yields the last. -/
theorem C1_sequential_paging (s : ToolbarState) (i : Nat)
    (h : i < s.data.length)
    (hnd : (s.data.map Row.id).Nodup)
    (hpr : s.sel.primaryId = some ((s.data.get ⟨i, h⟩).id)) :
    ((dsPageStep s 1).sel.selectedIds =
        ((s.data[(i + 1) % s.data.length]?).map Row.id).toList)
    ∧ ((dsPageStep s (-1)).sel.selectedIds =
        ((s.data[(i + s.data.length - 1) % s.data.length]?).map Row.id).toList)
    ∧ (i + 1 = s.data.length →
        (dsPageStep s 1).sel.selectedIds = ((s.data[0]?).map Row.id).toList)
    ∧ (i = 0 →
        (dsPageStep s (-1)).sel.selectedIds =
          ((s.data[s.data.length - 1]?).map Row.id).toList) := by
  have hlen : 0 < s.data.length := Nat.lt_of_le_of_lt (Nat.zero_le i) h
  have hnext : (dsPageStep s 1).sel.selectedIds =
      ((s.data[(i + 1) % s.data.length]?).map Row.id).toList := by
    apply dsPageStep_eq s i h hnd hpr 1 ((i + 1) % s.data.length)
      (Nat.mod_lt _ hlen)
    have hc : ((i : Int) + 1 + (s.data.length : Int)) =
        ((i + 1 + s.data.length : Nat) : Int) := by push_cast; ring
    rw [hc, tmod_coe, Nat.add_mod_right]
  have hprev : (dsPageStep s (-1)).sel.selectedIds =
      ((s.data[(i + s.data.length - 1) % s.data.length]?).map Row.id).toList := by
    apply dsPageStep_eq s i h hnd hpr (-1)
      ((i + s.data.length - 1) % s.data.length) (Nat.mod_lt _ hlen)
    have hc : ((i : Int) + (-1) + (s.data.length : Int)) =
        ((i + s.data.length - 1 : Nat) : Int) := by omega
    rw [hc, tmod_coe]
  refine ⟨hnext, hprev, ?_, ?_⟩
  · intro he
    have h0 : (i + 1) % s.data.length = 0 := by rw [he]; exact Nat.mod_self _
    rw [h0] at hnext
    exact hnext
  · intro he
    subst he
    have h0 : (0 + s.data.length - 1) % s.data.length = s.data.length - 1 := by
      rw [Nat.zero_add]
      exact Nat.mod_eq_of_lt (by omega)
    rw [h0] at hprev
    exact hprev

/-- C1 witness: a five-row dataset [a, b, c, d, e] with c selected: next
lands on d and prev on b; and the wrap cases on the boundary indices are
covered by the modulo arithmetic. -/
theorem C1_sequential_paging_witness :
    ((dsPageStep { data := [{ id := "a" }, { id := "b" }, { id := "c" },
                            { id := "d" }, { id := "e" }],
                   sel := { selectedIds := ["c"], primaryId := some "c" } }
        1).sel.selectedIds = ["d"])
    ∧ ((dsPageStep { data := [{ id := "a" }, { id := "b" }, { id := "c" },
                              { id := "d" }, { id := "e" }],
                     sel := { selectedIds := ["c"], primaryId := some "c" } }
        (-1)).sel.selectedIds = ["b"]) := by
  have hcall := C1_sequential_paging
    { data := [{ id := "a" }, { id := "b" }, { id := "c" },
               { id := "d" }, { id := "e" }],
      sel := { selectedIds := ["c"], primaryId := some "c" } }
    2 (by decide) (by decide) rfl
  exact ⟨by rw [hcall.1]; rfl, by rw [hcall.2.1]; rfl⟩

/-- C2 counterexample: in the two-pair scenario with nothing selected,
cycling once ('next') does not select child1/parent1 as the claim states;
the code starts the cycle at index 0 and offset +1 lands on the second pair. -/
theorem C2_pair_cycle_counterexample :
    ¬((pairStep pairSt 1).sel.primaryId = some "child1" ∧
      (pairStep pairSt 1).refSel.primaryId = some "parent1") := by
  decide

/-- C2 amended: with comparison mode on, no identifiers selected, and the
pair list [(c1,p1),(c2,p2)], cycling once ('next') selects the full
flattened set of pair members and sets c2 (the pair at index (0+1) mod 2 =
1) as the main primary selection and p2 as the reference primary
selection. -/
theorem C2_pair_cycle_from_empty (c1 p1 c2 p2 : String)
    (hp1 : p1 ≠ "") (hp2 : p2 ≠ "")
    (refSel : SelState) (slices : Slices) (ssn : String) (hf : Bool) :
    (∀ x, x ∈ (pairStep (pairScenario c1 p1 c2 p2 refSel slices ssn hf)
        1).sel.selectedIds ↔ x ∈ [c1, p1, c2, p2])
    ∧ (pairStep (pairScenario c1 p1 c2 p2 refSel slices ssn hf)
        1).sel.primaryId = some c2
    ∧ (pairStep (pairScenario c1 p1 c2 p2 refSel slices ssn hf)
        1).refSel.primaryId = some p2 := by
  have hpairs : selectedIdPairs (pairScenario c1 p1 c2 p2 refSel slices ssn hf) =
      [(c1, p1), (c2, p2)] := by
    simp [selectedIdPairs, selectedOrAllInputData, pairScenario,
      List.filter_cons, hp1, hp2]
  have hstep : pairStep (pairScenario c1 p1 c2 p2 refSel slices ssn hf) 1 =
      { pairScenario c1 p1 c2 p2 refSel slices ssn hf with
        sel := { selectedIds := [c1, p1, c2, p2].dedup, primaryId := some c2 },
        refSel := { refSel with primaryId := some p2 } } := by
    simp only [pairStep, hpairs]
    norm_num [pairScenario, selIds, setPrimary,
      show Int.tmod 3 2 = 1 from rfl]
  rw [hstep]
  refine ⟨fun x => ?_, rfl, rfl⟩
  exact List.mem_dedup

/-- C2 amended witness: the concrete child1/child2 scenario: cycling once
selects all four pair members and sets child2 and parent2 as the two
primaries. -/
theorem C2_pair_cycle_from_empty_witness :
    ("child1" ∈ (pairStep (pairScenario "child1" "parent1" "child2" "parent2"
        {} [] "" false) 1).sel.selectedIds ↔
      "child1" ∈ ["child1", "parent1", "child2", "parent2"])
    ∧ (pairStep (pairScenario "child1" "parent1" "child2" "parent2"
        {} [] "" false) 1).sel.primaryId = some "child2"
    ∧ (pairStep (pairScenario "child1" "parent1" "child2" "parent2"
        {} [] "" false) 1).refSel.primaryId = some "parent2" := by
  have hcall := C2_pair_cycle_from_empty "child1" "parent1" "child2" "parent2"
    (by decide) (by decide) {} [] "" false
  exact ⟨hcall.1 "child1", hcall.2.1, hcall.2.2⟩

theorem mem_addIfAbsent (acc : List String) (id x : String) :
    x ∈ addIfAbsent acc id ↔ x ∈ acc ∨ x = id := by
  simp only [addIfAbsent]
  by_cases h : acc.contains id = true
  · rw [if_pos h]
    constructor
    · exact Or.inl
    · rintro (hx | rfl)
      · exact hx
      · simpa using h
  · rw [if_neg h]
    simp

theorem nodup_addIfAbsent (acc : List String) (id : String) (h : acc.Nodup) :
    (addIfAbsent acc id).Nodup := by
  simp only [addIfAbsent]
  by_cases hc : acc.contains id = true
  · rw [if_pos hc]
    exact h
  · rw [if_neg hc]
    simp only [List.nodup_append, List.nodup_cons, List.nodup_nil]
    refine ⟨h, by simp, ?_⟩
    intro a ha hb
    simp only [List.mem_singleton] at hb
    subst hb
    exact hc (by simpa using ha)

theorem mem_children_foldl (s : ToolbarState) (l : List Row)
    (acc : List String) (x : String) :
    (x ∈ l.foldl
        (fun acc d =>
          if (getAncestry s d.id).any (fun a => isIdSelected s.sel a) then
            addIfAbsent acc d.id
          else acc)
        acc) ↔
      x ∈ acc ∨ ∃ d ∈ l, x = d.id ∧
        (getAncestry s d.id).any (fun a => isIdSelected s.sel a) = true := by
  induction l generalizing acc with
  | nil => simp
  | cons d rest ih =>
    simp only [List.foldl_cons]
    by_cases hc : (getAncestry s d.id).any (fun a => isIdSelected s.sel a) = true
    · rw [if_pos hc, ih, mem_addIfAbsent]
      simp only [List.mem_cons, hc]
      constructor
      · rintro ((hx | rfl) | ⟨e, he, hxe, hany⟩)
        · exact Or.inl hx
        · exact Or.inr ⟨d, Or.inl rfl, rfl, hc⟩
        · exact Or.inr ⟨e, Or.inr he, hxe, hany⟩
      · rintro (hx | ⟨e, (rfl | he), hxe, hany⟩)
        · exact Or.inl (Or.inl hx)
        · exact Or.inl (Or.inr hxe)
        · exact Or.inr ⟨e, he, hxe, hany⟩
    · rw [if_neg hc, ih]
      simp only [List.mem_cons]
      constructor
      · rintro (hx | ⟨e, he, hxe, hany⟩)
        · exact Or.inl hx
        · exact Or.inr ⟨e, Or.inr he, hxe, hany⟩
      · rintro (hx | ⟨e, (rfl | he), hxe, hany⟩)
        · exact Or.inl hx
        · exact absurd hany hc
        · exact Or.inr ⟨e, he, hxe, hany⟩

theorem nodup_children_foldl (s : ToolbarState) (l : List Row)
    (acc : List String) (h : acc.Nodup) :
    (l.foldl
        (fun acc d =>
          if (getAncestry s d.id).any (fun a => isIdSelected s.sel a) then
            addIfAbsent acc d.id
          else acc)
        acc).Nodup := by
  induction l generalizing acc with
  | nil => exact h
  | cons d rest ih =>
    simp only [List.foldl_cons]
    by_cases hc : (getAncestry s d.id).any (fun a => isIdSelected s.sel a) = true
    · rw [if_pos hc]
      exact ih _ (nodup_addIfAbsent acc d.id h)
    · rw [if_neg hc]
      exact ih _ h

theorem self_mem_getAncestry (s : ToolbarState) (id : String) :
    id ∈ getAncestry s id := by
  simp [getAncestry, getAncestryFuel]

theorem mem_findAllParents (s : ToolbarState) (x : String) :
    x ∈ findAllParents s ↔ ∃ sid ∈ s.sel.selectedIds, x ∈ getAncestry s sid := by
  simp [findAllParents]

theorem mem_findAllChildren (s : ToolbarState) (x : String) :
    x ∈ findAllChildren s ↔ x ∈ s.sel.selectedIds ∨
      ∃ d ∈ s.data, x = d.id ∧ ∃ a ∈ getAncestry s d.id, a ∈ s.sel.selectedIds := by
  rw [findAllChildren, mem_children_foldl]
  simp [List.any_eq_true, isIdSelected]

/-- C4: on a non-empty selection S, `selectRelated` replaces the selection
with a duplicate-free superset of S whose members are exactly the union of
(a) every transitive ancestor (inclusive) of a member of S and (b) every
dataset identifier whose ancestry chain contains a member of S. -/
theorem C4_selectRelated_union (s : ToolbarState)
    (_hne : s.sel.selectedIds ≠ []) :
    ((selectRelated s).sel.selectedIds).Nodup
    ∧ (∀ id ∈ s.sel.selectedIds, id ∈ (selectRelated s).sel.selectedIds)
    ∧ (∀ x, x ∈ (selectRelated s).sel.selectedIds ↔
        (∃ sid ∈ s.sel.selectedIds, x ∈ getAncestry s sid) ∨
        ∃ d ∈ s.data, x = d.id ∧
          ∃ a ∈ getAncestry s d.id, a ∈ s.sel.selectedIds) := by
  have hmem : ∀ x, x ∈ (selectRelated s).sel.selectedIds ↔
      x ∈ findAllParents s ∨ x ∈ findAllChildren s := by
    intro x
    simp [selectRelated, selIds, List.mem_dedup]
  refine ⟨?_, ?_, ?_⟩
  · simp [selectRelated, selIds, List.nodup_dedup]
  · intro id hid
    rw [hmem]
    right
    rw [mem_findAllChildren]
    exact Or.inl hid
  · intro x
    rw [hmem, mem_findAllParents, mem_findAllChildren]
    constructor
    · rintro (hp | (hsel | hc))
      · exact Or.inl hp
      · exact Or.inl ⟨x, hsel, self_mem_getAncestry s x⟩
      · exact Or.inr hc
    · rintro (hp | hc)
      · exact Or.inl hp
      · exact Or.inr (Or.inr hc)

/-- C4 witness: dataset a ← b ← c (each child points at its parent) with
selection [b]: the related selection contains b, its ancestor a, and its
descendant c, without duplicates. -/
theorem C4_selectRelated_union_witness :
    (["b"] : List String) ≠ [] ∧
    ((selectRelated
        { data := [{ id := "a" },
                   { id := "b", meta := { parentId := some "a" } },
                   { id := "c", meta := { parentId := some "b" } }],
          sel := { selectedIds := ["b"], primaryId := some "b" } }).sel.selectedIds).Nodup
    ∧ "b" ∈ (selectRelated
        { data := [{ id := "a" },
                   { id := "b", meta := { parentId := some "a" } },
                   { id := "c", meta := { parentId := some "b" } }],
          sel := { selectedIds := ["b"], primaryId := some "b" } }).sel.selectedIds
    ∧ (selectRelated
        { data := [{ id := "a" },
                   { id := "b", meta := { parentId := some "a" } },
                   { id := "c", meta := { parentId := some "b" } }],
          sel := { selectedIds := ["b"], primaryId := some "b" } }).sel.selectedIds =
        ["a", "b", "c"] := by
  have hcall := C4_selectRelated_union
    { data := [{ id := "a" },
               { id := "b", meta := { parentId := some "a" } },
               { id := "c", meta := { parentId := some "b" } }],
      sel := { selectedIds := ["b"], primaryId := some "b" } }
    (by decide)
  exact ⟨by decide, hcall.1, hcall.2.1 "b" (by decide), by decide⟩

theorem sliceNamesOf_updateSlice (name : String) (f : List String → List String)
    (l : Slices) : sliceNamesOf (updateSlice name f l) = sliceNamesOf l := by
  induction l with
  | nil => rfl
  | cons e t ih =>
    obtain ⟨n, ids⟩ := e
    by_cases h : (n == name) = true
    · simp [updateSlice, h, sliceNamesOf]
    · simp only [Bool.not_eq_true] at h
      simpa [updateSlice, h, sliceNamesOf] using ih

theorem sliceMembership_updateSlice (name : String)
    (f : List String → List String) (l : Slices)
    (h : name ∈ sliceNamesOf l) :
    sliceMembership (updateSlice name f l) name =
      f (sliceMembership l name) := by
  induction l with
  | nil => simp [sliceNamesOf] at h
  | cons e t ih =>
    obtain ⟨n, ids⟩ := e
    by_cases he : (n == name) = true
    · simp [updateSlice, he, sliceMembership, List.find?_cons]
    · simp only [Bool.not_eq_true] at he
      have hn : name ∈ sliceNamesOf t := by
        simp only [sliceNamesOf, List.map_cons, List.mem_cons] at h
        rcases h with h | h
        · exact absurd h.symm (beq_eq_false_iff_ne.mp he)
        · exact h
      simpa [updateSlice, he, sliceMembership, List.find?_cons] using ih hn

theorem addSingle_spec (m : List String) (x : String) (h : m.Nodup) :
    (m ++ [x].filter (fun i => !m.contains i)).count x = 1
    ∧ (m ++ [x].filter (fun i => !m.contains i)).Nodup
    ∧ x ∈ m ++ [x].filter (fun i => !m.contains i) := by
  by_cases hc : m.contains x = true
  · have hmem : x ∈ m := by simpa using hc
    have hfil : [x].filter (fun i => !m.contains i) = [] := by
      simp [List.filter_cons, hmem]
    rw [hfil]
    simp only [List.append_nil]
    exact ⟨List.count_eq_one_of_mem h hmem, h, hmem⟩
  · have hmem : x ∉ m := by simpa using hc
    have hfil : [x].filter (fun i => !m.contains i) = [x] := by
      simp [List.filter_cons, hmem]
    rw [hfil]
    refine ⟨?_, ?_, ?_⟩
    · simp [List.count_eq_zero_of_not_mem hmem]
    · simp [List.nodup_append, h, hmem]
    · simp
  
theorem removeSingle_spec (m : List String) (x : String) (h : m.Nodup) :
    (m.filter (fun i => !([x] : List String).contains i)).Nodup
    ∧ x ∉ m.filter (fun i => !([x] : List String).contains i) := by
  refine ⟨h.filter _, ?_⟩
  intro hmem
  have := List.of_mem_filter hmem
  simp at this

theorem toggleFavorited_eq (s : ToolbarState) (row : Row) (fav : Bool)
    (hrow : primarySelectedInputData s = some row)
    (hfav : row.meta.isFavorited = some fav) :
    toggleFavorited s = applyToggle s row fav := by
  unfold toggleFavorited applyToggle
  rw [hrow]
  simp only [hfav]

theorem primary_of_primarySelectedInputData (s : ToolbarState) (row : Row)
    (hrow : primarySelectedInputData s = some row) :
    s.sel.primaryId = some row.id
    ∧ s.data.find? (fun d => d.id == row.id) = some row := by
  unfold primarySelectedInputData at hrow
  cases hp : s.sel.primaryId with
  | none =>
    rw [hp] at hrow
    simp at hrow
  | some pid =>
    rw [hp] at hrow
    simp only [Option.some_bind] at hrow
    have hid : row.id = pid := by
      have := List.find?_some hrow
      simpa [beq_iff_eq] using this
    rw [← hid] at hrow
    exact ⟨by simp [hp, hid], hrow⟩

theorem find?_map_setFav (data : List Row) (rid x : String) (v : Bool) :
    ((data.map (fun d =>
        if d.id == rid then
          { d with meta := { d.meta with isFavorited := some v } }
        else d)).find? (fun d => d.id == x)) =
      (data.find? (fun d => d.id == x)).map (fun d =>
        if d.id == rid then
          { d with meta := { d.meta with isFavorited := some v } }
        else d) := by
  have hpred : ((fun d : Row => d.id == x) ∘ (fun d =>
      if d.id == rid then
        { d with meta := { d.meta with isFavorited := some v } }
      else d)) = (fun d : Row => d.id == x) := by
    funext d
    by_cases hd : (d.id == rid) = true <;> simp [Function.comp, hd]
  rw [List.find?_map, hpred]

theorem applyToggle_false_slices (s : ToolbarState) (row : Row) :
    (applyToggle s row false).slices =
      addIdsToSlice FAVORITES_SLICE_NAME [row.id] s.slices := by
  unfold applyToggle
  by_cases hsl : (s.selectedSliceName == FAVORITES_SLICE_NAME) = true <;>
    simp [hsl]

theorem applyToggle_true_slices (s : ToolbarState) (row : Row) :
    (applyToggle s row true).slices =
      removeIdsFromSlice FAVORITES_SLICE_NAME [row.id] s.slices := by
  unfold applyToggle
  by_cases hsl : (s.selectedSliceName == FAVORITES_SLICE_NAME) = true <;>
    simp [hsl]

theorem applyToggle_false_data (s : ToolbarState) (row : Row) :
    (applyToggle s row false).data =
      s.data.map (fun d =>
        if d.id == row.id then
          { d with meta := { d.meta with isFavorited := some true } }
        else d) := by
  unfold applyToggle
  by_cases hsl : (s.selectedSliceName == FAVORITES_SLICE_NAME) = true <;>
    simp [hsl]

theorem applyToggle_true_data (s : ToolbarState) (row : Row) :
    (applyToggle s row true).data =
      s.data.map (fun d =>
        if d.id == row.id then
          { d with meta := { d.meta with isFavorited := some false } }
        else d) := by
  unfold applyToggle
  by_cases hsl : (s.selectedSliceName == FAVORITES_SLICE_NAME) = true <;>
    simp [hsl]

theorem applyToggle_ssn (s : ToolbarState) (row : Row) (fav : Bool) :
    (applyToggle s row fav).selectedSliceName = s.selectedSliceName := by
  unfold applyToggle
  by_cases hsl : (s.selectedSliceName == FAVORITES_SLICE_NAME) = true <;>
    simp [hsl]

theorem applyToggle_false_primary (s : ToolbarState) (row : Row)
    (hpid : s.sel.primaryId = some row.id)
    (hmem : row.id ∈ sliceMembership
        (addIdsToSlice FAVORITES_SLICE_NAME [row.id] s.slices)
        FAVORITES_SLICE_NAME) :
    (applyToggle s row false).sel.primaryId = some row.id := by
  have hc : (sliceMembership
      (addIdsToSlice FAVORITES_SLICE_NAME [row.id] s.slices)
      FAVORITES_SLICE_NAME).contains row.id = true := by
    simpa using hmem
  unfold applyToggle
  by_cases hsl : (s.selectedSliceName == FAVORITES_SLICE_NAME) = true
  · simp only [hsl, hpid]
    simp [hc]
    intro hx
    exact absurd hmem hx
  · simp [hsl, hpid]

theorem applyToggle_false_ids_fav (s : ToolbarState) (row : Row)
    (hsl : (s.selectedSliceName == FAVORITES_SLICE_NAME) = true) :
    (applyToggle s row false).sel.selectedIds =
      sliceMembership (addIdsToSlice FAVORITES_SLICE_NAME [row.id] s.slices)
        FAVORITES_SLICE_NAME := by
  unfold applyToggle
  simp [hsl]

/-- C3: on a primary row with isFavorited = false and a duplicate-free
favorites slice, one toggle sets the flag true and puts the id in the
favorites membership exactly once; the membership stays duplicate-free;
with the favorites slice active the selection is reloaded from the updated
membership; and a second toggle sets the flag back to false and removes the
id, again without duplicates. -/
theorem C3_favorite_round_trip (s : ToolbarState) (row : Row)
    (hrow : primarySelectedInputData s = some row)
    (hfav : row.meta.isFavorited = some false)
    (hnodup : (sliceMembership s.slices FAVORITES_SLICE_NAME).Nodup)
    (hexists : FAVORITES_SLICE_NAME ∈ sliceNamesOf s.slices) :
    primarySelectedInputData (toggleFavorited s) =
        some { row with meta := { row.meta with isFavorited := some true } }
    ∧ (sliceMembership (toggleFavorited s).slices
        FAVORITES_SLICE_NAME).count row.id = 1
    ∧ (sliceMembership (toggleFavorited s).slices FAVORITES_SLICE_NAME).Nodup
    ∧ (s.selectedSliceName = FAVORITES_SLICE_NAME →
        (toggleFavorited s).sel.selectedIds =
          sliceMembership (toggleFavorited s).slices FAVORITES_SLICE_NAME)
    ∧ (((toggleFavorited (toggleFavorited s)).data.find?
          (fun d => d.id == row.id)).map (fun d => d.meta.isFavorited) =
        some (some false))
    ∧ row.id ∉ sliceMembership
        (toggleFavorited (toggleFavorited s)).slices FAVORITES_SLICE_NAME
    ∧ (sliceMembership (toggleFavorited (toggleFavorited s)).slices
        FAVORITES_SLICE_NAME).Nodup := by
  obtain ⟨hpid, hfind⟩ := primary_of_primarySelectedInputData s row hrow
  have h1 : toggleFavorited s = applyToggle s row false :=
    toggleFavorited_eq s row false hrow hfav
  have hm1 : sliceMembership
      (addIdsToSlice FAVORITES_SLICE_NAME [row.id] s.slices)
      FAVORITES_SLICE_NAME =
      sliceMembership s.slices FAVORITES_SLICE_NAME ++
        [row.id].filter
          (fun i => !(sliceMembership s.slices FAVORITES_SLICE_NAME).contains i) := by
    unfold addIdsToSlice
    rw [sliceMembership_updateSlice _ _ _ hexists]
  obtain ⟨hcount1, hnodup1, hmem1a⟩ :=
    addSingle_spec (sliceMembership s.slices FAVORITES_SLICE_NAME) row.id hnodup
  have hmem1 : row.id ∈ sliceMembership
      (addIdsToSlice FAVORITES_SLICE_NAME [row.id] s.slices)
      FAVORITES_SLICE_NAME := by
    rw [hm1]
    exact hmem1a
  have ht1slices : (toggleFavorited s).slices =
      addIdsToSlice FAVORITES_SLICE_NAME [row.id] s.slices := by
    rw [h1]
    exact applyToggle_false_slices s row
  have ht1data : (toggleFavorited s).data =
      s.data.map (fun d =>
        if d.id == row.id then
          { d with meta := { d.meta with isFavorited := some true } }
        else d) := by
    rw [h1]
    exact applyToggle_false_data s row
  have ht1pid : (toggleFavorited s).sel.primaryId = some row.id := by
    rw [h1]
    exact applyToggle_false_primary s row hpid hmem1
  have ht1find : (toggleFavorited s).data.find? (fun d => d.id == row.id) =
      some { row with meta := { row.meta with isFavorited := some true } } := by
    rw [ht1data, find?_map_setFav, hfind]
    simp
  have hc1 : primarySelectedInputData (toggleFavorited s) =
      some { row with meta := { row.meta with isFavorited := some true } } := by
    unfold primarySelectedInputData
    rw [ht1pid]
    simp only [Option.some_bind]
    exact ht1find
  have hc2 : (sliceMembership (toggleFavorited s).slices
      FAVORITES_SLICE_NAME).count row.id = 1 := by
    rw [ht1slices, hm1]
    exact hcount1
  have hc3 : (sliceMembership (toggleFavorited s).slices
      FAVORITES_SLICE_NAME).Nodup := by
    rw [ht1slices, hm1]
    exact hnodup1
  have hc4 : s.selectedSliceName = FAVORITES_SLICE_NAME →
      (toggleFavorited s).sel.selectedIds =
        sliceMembership (toggleFavorited s).slices FAVORITES_SLICE_NAME := by
    intro hsel
    have hsl : (s.selectedSliceName == FAVORITES_SLICE_NAME) = true := by
      simp [hsel]
    rw [h1, applyToggle_false_slices]
    exact applyToggle_false_ids_fav s row hsl
  have h2 : toggleFavorited (toggleFavorited s) =
      applyToggle (toggleFavorited s)
        { row with meta := { row.meta with isFavorited := some true } } true :=
    toggleFavorited_eq _ _ true hc1 rfl
  have ht2data : (toggleFavorited (toggleFavorited s)).data =
      (toggleFavorited s).data.map (fun d =>
        if d.id == row.id then
          { d with meta := { d.meta with isFavorited := some false } }
        else d) := by
    rw [h2]
    exact applyToggle_true_data _ _
  have hfind2 : (toggleFavorited (toggleFavorited s)).data.find?
      (fun d => d.id == row.id) =
      some { row with meta := { row.meta with isFavorited := some false } } := by
    rw [ht2data, find?_map_setFav, ht1find]
    simp
  have hc5 : (((toggleFavorited (toggleFavorited s)).data.find?
      (fun d => d.id == row.id)).map (fun d => d.meta.isFavorited)) =
      some (some false) := by
    rw [hfind2]
    simp
  have ht2slices : (toggleFavorited (toggleFavorited s)).slices =
      removeIdsFromSlice FAVORITES_SLICE_NAME [row.id]
        (toggleFavorited s).slices := by
    rw [h2]
    exact applyToggle_true_slices _ _
  have hexists1 : FAVORITES_SLICE_NAME ∈ sliceNamesOf (toggleFavorited s).slices := by
    rw [ht1slices]
    unfold addIdsToSlice
    rw [sliceNamesOf_updateSlice]
    exact hexists
  have hm2 : sliceMembership (toggleFavorited (toggleFavorited s)).slices
      FAVORITES_SLICE_NAME =
      (sliceMembership (toggleFavorited s).slices FAVORITES_SLICE_NAME).filter
        (fun i => !([row.id] : List String).contains i) := by
    rw [ht2slices]
    unfold removeIdsFromSlice
    rw [sliceMembership_updateSlice _ _ _ hexists1]
  obtain ⟨hnodup2, hnotmem2⟩ := removeSingle_spec
    (sliceMembership (toggleFavorited s).slices FAVORITES_SLICE_NAME)
    row.id hc3
  have hc6 : row.id ∉ sliceMembership
      (toggleFavorited (toggleFavorited s)).slices FAVORITES_SLICE_NAME := by
    rw [hm2]
    exact hnotmem2
  have hc7 : (sliceMembership (toggleFavorited (toggleFavorited s)).slices
      FAVORITES_SLICE_NAME).Nodup := by
    rw [hm2]
    exact hnodup2
  exact ⟨hc1, hc2, hc3, hc4, hc5, hc6, hc7⟩

/-- C3 witness: the round trip on the one-row scenario, with the favorites
slice present and initially empty. -/
theorem C3_favorite_round_trip_witness :
    primarySelectedInputData (toggleFavorited favSt) =
        some { id := "a", meta := { isFavorited := some true } }
    ∧ (sliceMembership (toggleFavorited favSt).slices
        FAVORITES_SLICE_NAME).count "a" = 1
    ∧ (sliceMembership (toggleFavorited favSt).slices FAVORITES_SLICE_NAME).Nodup
    ∧ (favSt.selectedSliceName = FAVORITES_SLICE_NAME →
        (toggleFavorited favSt).sel.selectedIds =
          sliceMembership (toggleFavorited favSt).slices FAVORITES_SLICE_NAME)
    ∧ (((toggleFavorited (toggleFavorited favSt)).data.find?
          (fun d => d.id == "a")).map (fun d => d.meta.isFavorited) =
        some (some false))
    ∧ "a" ∉ sliceMembership
        (toggleFavorited (toggleFavorited favSt)).slices FAVORITES_SLICE_NAME
    ∧ (sliceMembership (toggleFavorited (toggleFavorited favSt)).slices
        FAVORITES_SLICE_NAME).Nodup :=
  C3_favorite_round_trip favSt { id := "a", meta := { isFavorited := some false } }
    (by decide) rfl (by decide) (by decide)
